import Mathlib

/-!
Shallow embedding of `Source/Engine/Core/Math/Double3.h` (FlaxEngine), the
double-precision three-component vector type `Double3`.

Scalar model: the C++ `double` is modelled as the exact rationals `ℚ`.
Operations whose claims are structural or bitwise (identical operation
sequences on both sides) keep exact arithmetic; the vector-vector
`operator+`/`operator-`, whose claim turns on rounding, round each
component with an explicit IEEE-754 round-to-nearest-even model `fl`. A
second scalar model `DExt` extends `ℚ` with the IEEE-754 special values
`+inf`, `-inf` and `NaN` and is used for the claims whose content is the
production of those special values (division by zero length,
`0 * inf = NaN`).

Helpers used by `Double3.h` but declared in headers outside the provided
source (`Math::Sqrt`, `ZeroTolerance`, `Math::Lerp`, `Math::NearEqual`,
`Math::Abs`) are modelled from the spec and marked as such on their doc
comments.
-/

namespace Flax

/-- Modelled from the spec: `Math::Abs` (declared in Math.h, not part of the
provided source) is the absolute value. -/
def Mabs (x : ℚ) : ℚ := |x|

/-- Modelled from the spec: `ZeroTolerance` (declared in Math.h, not part of
the provided source) is "a small fixed epsilon"; the engine uses 1e-6. -/
def ZeroTolerance : ℚ := 1 / 1000000

/-- Modelled from the spec: `Math::Sqrt` (declared in Math.h, not part of the
provided source) is the square root. On this exact-rational scalar model it
returns the exact square root whenever the reduced numerator and denominator
are perfect squares (which covers every value the claims evaluate it at), and
a floor-based approximation otherwise. -/
def ratSqrt (q : ℚ) : ℚ := (Nat.sqrt q.num.toNat : ℚ) / (Nat.sqrt q.den : ℚ)

/-- Modelled from the spec: the shared scalar interpolation routine
`Math::Lerp` (declared in Math.h, not part of the provided source):
`a + (b - a) * alpha`, with no clamping of `alpha`. -/
def mathLerp (a b alpha : ℚ) : ℚ := a + (b - a) * alpha

/-- Modelled from the spec: the default-epsilon scalar `Math::NearEqual`
(declared in Math.h, not part of the provided source): absolute difference
below the fixed tolerance. -/
def mathNearEqual (a b : ℚ) : Bool := decide (Mabs (a - b) < ZeroTolerance)

/-- Modelled from the spec: the explicit-epsilon scalar `Math::NearEqual`
(declared in Math.h, not part of the provided source). -/
def mathNearEqualEps (a b epsilon : ℚ) : Bool := decide (Mabs (a - b) < epsilon)

/-- Modelled from the spec: rounding of an exact value to the nearest
integer with ties to even, the integer core of IEEE-754
round-to-nearest-even. -/
def rne (x : ℚ) : ℤ :=
  let f := ⌊x⌋
  if x - f < 1 / 2 then f
  else if 1 / 2 < x - f then f + 1
  else if f % 2 = 0 then f else f + 1

/-- Modelled from the spec: IEEE-754 round-to-nearest-even of an exact value
to a 64-bit `double` with a 53-bit significand, in the normal finite range
(gradual underflow and overflow to infinity do not arise at the values
considered here). The significand is the value scaled into
`[2^52, 2^53)` and rounded by `rne`. -/
def fl (q : ℚ) : ℚ :=
  if q = 0 then 0
  else
    let e : ℤ := Int.log 2 |q| - 52
    (rne (q / 2 ^ e) : ℚ) * 2 ^ e

/-- Modelled from the spec: IEEE-754 `double` addition, the exact sum
rounded to the nearest double. -/
def addD (a b : ℚ) : ℚ := fl (a + b)

/-- Modelled from the spec: IEEE-754 `double` subtraction, the exact
difference rounded to the nearest double. -/
def subD (a b : ℚ) : ℚ := fl (a - b)

/-- The `Double3` struct: three 64-bit floating-point components `X`, `Y`,
`Z`, modelled over the exact-rational scalar model. -/
@[ext]
structure Double3 where
  X : ℚ
  Y : ℚ
  Z : ℚ
deriving DecidableEq

namespace Double3

/-- Static constant `Double3::Zero`: vector with all components equal 0. -/
def Zero : Double3 := ⟨0, 0, 0⟩

/-- Static constant `Double3::One`: vector with all components equal 1. -/
def One : Double3 := ⟨1, 1, 1⟩

/-- The implicit single-argument constructor `Double3(double xyz)`:
broadcasts one scalar to all three components. -/
def broadcast (xyz : ℚ) : Double3 := ⟨xyz, xyz, xyz⟩

/-- Method `Double3::LengthSquared`: `X * X + Y * Y + Z * Z`. -/
def LengthSquared (v : Double3) : ℚ := v.X * v.X + v.Y * v.Y + v.Z * v.Z

/-- Method `Double3::Length`: `Math::Sqrt(X * X + Y * Y + Z * Z)`. -/
def Length (v : Double3) : ℚ := ratSqrt (v.X * v.X + v.Y * v.Y + v.Z * v.Z)

/-- Method `Double3::AverageArithmetic`: `(X + Y + Z) * 0.333333334`. -/
def AverageArithmetic (v : Double3) : ℚ := (v.X + v.Y + v.Z) * 0.333333334

/-- The mutating `Double3::Normalize` method: computes
`length = Math::Sqrt(X*X + Y*Y + Z*Z)` and, only when
`Math::Abs(length) >= ZeroTolerance`, multiplies each component by
`inv = 1.0 / length`; otherwise the components are left unchanged.
Modelled as a function from the old state to the new state. -/
def Normalize (v : Double3) : Double3 :=
  let length := ratSqrt (v.X * v.X + v.Y * v.Y + v.Z * v.Z)
  if Mabs length ≥ ZeroTolerance then
    let inv := 1 / length
    ⟨v.X * inv, v.Y * inv, v.Z * inv⟩
  else v

/-- Member `operator+(const Double3&)`: component-wise `double` addition,
with each component sum rounded by IEEE-754 round-to-nearest-even (`addD`). -/
def op_add (a b : Double3) : Double3 :=
  ⟨addD a.X b.X, addD a.Y b.Y, addD a.Z b.Z⟩

/-- Member `operator-(const Double3&)`: component-wise `double` subtraction,
with each component difference rounded by IEEE-754 round-to-nearest-even
(`subD`). -/
def op_sub (a b : Double3) : Double3 :=
  ⟨subD a.X b.X, subD a.Y b.Y, subD a.Z b.Z⟩

/-- Member `operator*(const Double3&)`: component-wise multiplication. -/
def op_mul (a b : Double3) : Double3 := ⟨a.X * b.X, a.Y * b.Y, a.Z * b.Z⟩

/-- Member `operator/(const Double3&)`: component-wise division. -/
def op_div (a b : Double3) : Double3 := ⟨a.X / b.X, a.Y / b.Y, a.Z / b.Z⟩

/-- Member unary `operator-()`: `Double3(-X, -Y, -Z)`. -/
def op_neg (a : Double3) : Double3 := ⟨-a.X, -a.Y, -a.Z⟩

/-- Member `operator+(double b)`: adds the scalar to each component. -/
def op_add_scalar (a : Double3) (b : ℚ) : Double3 := ⟨a.X + b, a.Y + b, a.Z + b⟩

/-- Member `operator-(double b)`: subtracts the scalar from each component. -/
def op_sub_scalar (a : Double3) (b : ℚ) : Double3 := ⟨a.X - b, a.Y - b, a.Z - b⟩

/-- Member `operator*(double b)`: multiplies each component by the scalar. -/
def op_mul_scalar (a : Double3) (b : ℚ) : Double3 := ⟨a.X * b, a.Y * b, a.Z * b⟩

/-- Member `operator/(double b)`: divides each component by the scalar. -/
def op_div_scalar (a : Double3) (b : ℚ) : Double3 := ⟨a.X / b, a.Y / b, a.Z / b⟩

/-- Member `operator==`: exact component-wise equality. -/
def op_eq (a b : Double3) : Bool :=
  decide (a.X = b.X) && decide (a.Y = b.Y) && decide (a.Z = b.Z)

/-- Member `operator>`: conjunctive strict component-wise comparison. -/
def op_gt (a b : Double3) : Bool :=
  decide (a.X > b.X) && decide (a.Y > b.Y) && decide (a.Z > b.Z)

/-- Member `operator>=`: conjunctive component-wise comparison. -/
def op_ge (a b : Double3) : Bool :=
  decide (a.X ≥ b.X) && decide (a.Y ≥ b.Y) && decide (a.Z ≥ b.Z)

/-- Member `operator<`: conjunctive strict component-wise comparison. -/
def op_lt (a b : Double3) : Bool :=
  decide (a.X < b.X) && decide (a.Y < b.Y) && decide (a.Z < b.Z)

/-- Member `operator<=`: conjunctive component-wise comparison. -/
def op_le (a b : Double3) : Bool :=
  decide (a.X ≤ b.X) && decide (a.Y ≤ b.Y) && decide (a.Z ≤ b.Z)

/-- Static `Double3::NearEqual(a, b)` with the default epsilon:
`Math::NearEqual` on each component pair, conjunctively. -/
def NearEqual (a b : Double3) : Bool :=
  mathNearEqual a.X b.X && mathNearEqual a.Y b.Y && mathNearEqual a.Z b.Z

/-- Static `Double3::NearEqual(a, b, epsilon)` with an explicit epsilon:
`Math::NearEqual` on each component pair, conjunctively. -/
def NearEqualEps (a b : Double3) (epsilon : ℚ) : Bool :=
  mathNearEqualEps a.X b.X epsilon && mathNearEqualEps a.Y b.Y epsilon &&
    mathNearEqualEps a.Z b.Z epsilon

/-- Static output-reference `Double3::Add(a, b, result)`: the value it writes
into `result`. -/
def Add_out (a b : Double3) : Double3 := ⟨a.X + b.X, a.Y + b.Y, a.Z + b.Z⟩

/-- Static `Double3::Add(a, b)`: declares a local result, calls the
output-reference overload, and returns it. -/
def Add (a b : Double3) : Double3 := Add_out a b

/-- Static output-reference `Double3::Subtract(a, b, result)`: the value it
writes into `result`. -/
def Subtract_out (a b : Double3) : Double3 := ⟨a.X - b.X, a.Y - b.Y, a.Z - b.Z⟩

/-- Static `Double3::Subtract(a, b)`: declares a local result, calls the
output-reference overload, and returns it. -/
def Subtract (a b : Double3) : Double3 := Subtract_out a b

/-- Static `Double3::Multiply(a, b)` on two vectors. -/
def Multiply (a b : Double3) : Double3 := ⟨a.X * b.X, a.Y * b.Y, a.Z * b.Z⟩

/-- Static output-reference `Double3::Multiply(a, b, result)` on two vectors:
the value it writes into `result`. -/
def Multiply_out (a b : Double3) : Double3 := ⟨a.X * b.X, a.Y * b.Y, a.Z * b.Z⟩

/-- Static `Double3::Multiply(a, double b)` on a vector and a scalar. -/
def MultiplyS (a : Double3) (b : ℚ) : Double3 := ⟨a.X * b, a.Y * b, a.Z * b⟩

/-- Static `Double3::Divide(a, b)` on two vectors. -/
def Divide (a b : Double3) : Double3 := ⟨a.X / b.X, a.Y / b.Y, a.Z / b.Z⟩

/-- Static output-reference `Double3::Divide(a, b, result)` on two vectors:
the value it writes into `result`. -/
def Divide_out (a b : Double3) : Double3 := ⟨a.X / b.X, a.Y / b.Y, a.Z / b.Z⟩

/-- Static `Double3::Divide(a, double b)` on a vector and a scalar. -/
def DivideS (a : Double3) (b : ℚ) : Double3 := ⟨a.X / b, a.Y / b, a.Z / b⟩

/-- Member `operator+=(double b)`: `*this = Add(*this, b)`; the scalar is
implicitly converted to a vector by the broadcast constructor, selecting the
vector-vector static `Add`. Modelled as old state to new state. -/
def op_addAssign_scalar (v : Double3) (b : ℚ) : Double3 := Add v (broadcast b)

/-- Member `operator-=(double b)`: `*this = Subtract(*this, b)` through the
broadcast conversion. Modelled as old state to new state. -/
def op_subAssign_scalar (v : Double3) (b : ℚ) : Double3 :=
  Subtract v (broadcast b)

/-- Member `operator*=(double b)`: `*this = Multiply(*this, b)`, selecting the
vector-scalar static `Multiply`. Modelled as old state to new state. -/
def op_mulAssign_scalar (v : Double3) (b : ℚ) : Double3 := MultiplyS v b

/-- Member `operator/=(double b)`: `*this = Divide(*this, b)`, selecting the
vector-scalar static `Divide`. Modelled as old state to new state. -/
def op_divAssign_scalar (v : Double3) (b : ℚ) : Double3 := DivideS v b

/-- Static `Double3::Dot(a, b)`: `a.X * b.X + a.Y * b.Y + a.Z * b.Z`. -/
def Dot (a b : Double3) : ℚ := a.X * b.X + a.Y * b.Y + a.Z * b.Z

/-- Static `Double3::ScalarProduct(a, b)`: same expression as `Dot`. -/
def ScalarProduct (a b : Double3) : ℚ := a.X * b.X + a.Y * b.Y + a.Z * b.Z

/-- Static `Double3::Cross(a, b)` returning by value. -/
def Cross (a b : Double3) : Double3 :=
  ⟨a.Y * b.Z - a.Z * b.Y, a.Z * b.X - a.X * b.Z, a.X * b.Y - a.Y * b.X⟩

/-- Static output-reference `Double3::Cross(a, b, result)`: the value it
writes into `result`. -/
def Cross_out (a b : Double3) : Double3 :=
  ⟨a.Y * b.Z - a.Z * b.Y, a.Z * b.X - a.X * b.Z, a.X * b.Y - a.Y * b.X⟩

/-- Member `operator^(const Double3& b)`: `Cross(*this, b)`. -/
def op_caret (a b : Double3) : Double3 := Cross a b

/-- Member `operator|(const Double3& b)`: `Dot(*this, b)`. -/
def op_pipe (a b : Double3) : ℚ := Dot a b

/-- Static output-reference `Double3::Lerp(start, end, amount, result)`:
applies `Math::Lerp` to each component. -/
def Lerp_out (p q : Double3) (amount : ℚ) : Double3 :=
  ⟨mathLerp p.X q.X amount, mathLerp p.Y q.Y amount, mathLerp p.Z q.Z amount⟩

/-- Static `Double3::Lerp(start, end, amount)`: declares a local result, calls
the output-reference overload, and returns it. -/
def Lerp (p q : Double3) (amount : ℚ) : Double3 := Lerp_out p q amount

end Double3

/-- Modelled from the spec: the IEEE-754 special-value behavior of the C++
`double` ("Division by zero ... propagate as IEEE NaN/Infinity"). A scalar is
either a finite value (kept exact as a rational; rounding abstracted away),
positive infinity, negative infinity, or NaN. -/
inductive DExt where
  | fn : ℚ → DExt
  | pinf : DExt
  | ninf : DExt
  | nan : DExt
deriving DecidableEq

namespace DExt

/-- Modelled from the spec: IEEE-754 `double` multiplication on the extended
scalars; in particular `0 * inf = NaN` (either infinity) and NaN
propagates. -/
def mul : DExt → DExt → DExt
  | nan, _ => nan
  | _, nan => nan
  | fn a, fn b => fn (a * b)
  | fn a, pinf => if a = 0 then nan else if 0 < a then pinf else ninf
  | fn a, ninf => if a = 0 then nan else if 0 < a then ninf else pinf
  | pinf, fn b => if b = 0 then nan else if 0 < b then pinf else ninf
  | ninf, fn b => if b = 0 then nan else if 0 < b then ninf else pinf
  | pinf, pinf => pinf
  | pinf, ninf => ninf
  | ninf, pinf => ninf
  | ninf, ninf => pinf

/-- Modelled from the spec: IEEE-754 `double` addition on the extended
scalars; `(+inf) + (-inf) = NaN` and NaN propagates. -/
def add : DExt → DExt → DExt
  | nan, _ => nan
  | _, nan => nan
  | fn a, fn b => fn (a + b)
  | fn _, pinf => pinf
  | fn _, ninf => ninf
  | pinf, fn _ => pinf
  | ninf, fn _ => ninf
  | pinf, pinf => pinf
  | ninf, ninf => ninf
  | pinf, ninf => nan
  | ninf, pinf => nan

/-- Modelled from the spec: IEEE-754 `double` division on the extended
scalars; `1.0 / 0.0 = +inf` (the finite zero is the unsigned exact zero,
read as +0), `0/0 = NaN`, `inf/inf = NaN`, and NaN propagates. -/
def div : DExt → DExt → DExt
  | nan, _ => nan
  | _, nan => nan
  | fn a, fn b =>
    if b = 0 then (if a = 0 then nan else if 0 < a then pinf else ninf)
    else fn (a / b)
  | fn _, pinf => fn 0
  | fn _, ninf => fn 0
  | pinf, fn b => if b < 0 then ninf else pinf
  | ninf, fn b => if b < 0 then pinf else ninf
  | pinf, _ => nan
  | ninf, _ => nan

/-- Modelled from the spec: `Math::Sqrt` on the extended scalars; the square
root of a negative value or of NaN is NaN, and `sqrt(+inf) = +inf`. The
finite case uses the exact-rational square root model. -/
def sqrtE : DExt → DExt
  | nan => nan
  | pinf => pinf
  | ninf => nan
  | fn q => if q < 0 then nan else fn (ratSqrt q)

/-- Modelled from the spec: `Math::Abs` on the extended scalars. -/
def absE : DExt → DExt
  | nan => nan
  | pinf => pinf
  | ninf => pinf
  | fn q => fn |q|

/-- Modelled from the spec: the IEEE-754 `>=` comparison on the extended
scalars; every comparison involving NaN is false. -/
def geB : DExt → DExt → Bool
  | nan, _ => false
  | _, nan => false
  | fn a, fn b => decide (b ≤ a)
  | pinf, _ => true
  | _, pinf => false
  | ninf, ninf => true
  | ninf, fn _ => false
  | fn _, ninf => true

/-- Modelled from the spec: the C `isnan` classification predicate. -/
def isnanB : DExt → Bool
  | nan => true
  | _ => false

end DExt

/-- The `Double3` struct over the extended IEEE special-value scalar model,
used for the claims about NaN/Infinity production. -/
structure Double3E where
  X : DExt
  Y : DExt
  Z : DExt
deriving DecidableEq

namespace Double3E

/-- Static constant `Double3::Zero` in the extended model. -/
def ZeroE : Double3E := ⟨.fn 0, .fn 0, .fn 0⟩

/-- Method `Double3::Length` in the extended model:
`Math::Sqrt(X * X + Y * Y + Z * Z)` with C++ left-to-right association. -/
def LengthE (v : Double3E) : DExt :=
  DExt.sqrtE (DExt.add (DExt.add (DExt.mul v.X v.X) (DExt.mul v.Y v.Y))
    (DExt.mul v.Z v.Z))

/-- Method `Double3::GetNormalized` in the extended model:
`rcp = 1.0 / Length()` then each component times `rcp`; no zero-length
guard. -/
def GetNormalizedE (v : Double3E) : Double3E :=
  let rcp := DExt.div (.fn 1) (LengthE v)
  ⟨DExt.mul v.X rcp, DExt.mul v.Y rcp, DExt.mul v.Z rcp⟩

/-- The mutating `Double3::NormalizeFast` in the extended model:
`inv = 1.0 / Math::Sqrt(X*X + Y*Y + Z*Z)` then each component times `inv`;
no zero-length guard. Modelled as old state to new state. -/
def NormalizeFastE (v : Double3E) : Double3E :=
  let inv := DExt.div (.fn 1) (DExt.sqrtE (DExt.add (DExt.add
    (DExt.mul v.X v.X) (DExt.mul v.Y v.Y)) (DExt.mul v.Z v.Z)))
  ⟨DExt.mul v.X inv, DExt.mul v.Y inv, DExt.mul v.Z inv⟩

/-- Static `Double3::NormalizeFast(input)` in the extended model:
`inv = 1.0 / input.Length()` then each component times `inv`. -/
def NormalizeFastStaticE (input : Double3E) : Double3E :=
  let inv := DExt.div (.fn 1) (LengthE input)
  ⟨DExt.mul input.X inv, DExt.mul input.Y inv, DExt.mul input.Z inv⟩

/-- The mutating guarded `Double3::Normalize` in the extended model: scales
only when `Math::Abs(length) >= ZeroTolerance`, otherwise leaves the
components unchanged. -/
def NormalizeE (v : Double3E) : Double3E :=
  let length := DExt.sqrtE (DExt.add (DExt.add (DExt.mul v.X v.X)
    (DExt.mul v.Y v.Y)) (DExt.mul v.Z v.Z))
  if DExt.geB (DExt.absE length) (.fn ZeroTolerance) then
    let inv := DExt.div (.fn 1) length
    ⟨DExt.mul v.X inv, DExt.mul v.Y inv, DExt.mul v.Z inv⟩
  else v

/-- Method `Double3::IsNaN` in the extended model:
`isnan(X) || isnan(Y) || isnan(Z)`. -/
def IsNaNE (v : Double3E) : Bool :=
  DExt.isnanB v.X || DExt.isnanB v.Y || DExt.isnanB v.Z

end Double3E

/-- Evaluation of the square-root model at `0` (a perfect square). -/
theorem ratSqrt_zero : ratSqrt 0 = 0 := by
  unfold ratSqrt
  norm_num

/-- Evaluation of the square-root model at `9` (a perfect square). -/
theorem ratSqrt_nine : ratSqrt 9 = 3 := by
  unfold ratSqrt
  norm_num [show Int.toNat 9 = 9 from rfl]

/-- Evaluation of `Length` at the vector `(3,0,0)`. -/
theorem length_three_zero_zero : Double3.Length ⟨3, 0, 0⟩ = 3 := by
  unfold Double3.Length
  norm_num [ratSqrt_nine]

/-- Evaluation of `Length` at the zero vector. -/
theorem length_zero_vec : Double3.Length Double3.Zero = 0 := by
  unfold Double3.Length Double3.Zero
  norm_num [ratSqrt_zero]

/-- C1: for every vector whose length `Math::Sqrt(X*X+Y*Y+Z*Z)` satisfies
`|length| >= ZeroTolerance`, the mutating `Normalize` scales each component by
`1/length`; for every vector whose length is below `ZeroTolerance`,
`Normalize` leaves all three components exactly unchanged (hence no NaN is
produced). -/
theorem claim_C1_normalize_guard (v : Double3) :
    (ZeroTolerance ≤ Mabs (Double3.Length v) →
      Double3.Normalize v = ⟨v.X * (1 / Double3.Length v),
        v.Y * (1 / Double3.Length v), v.Z * (1 / Double3.Length v)⟩) ∧
    (Mabs (Double3.Length v) < ZeroTolerance → Double3.Normalize v = v) := by
  simp only [Double3.Normalize, Double3.Length]
  refine ⟨fun h => ?_, fun h => ?_⟩
  · rw [if_pos h]
  · rw [if_neg (not_le.mpr h)]

/-- Closed instance of `claim_C1_normalize_guard`: the vector `(3,0,0)` has
length `3`, above tolerance, and is scaled to `(1,0,0)`; the zero vector has
length `0`, below tolerance, and is left exactly unchanged. -/
theorem claim_C1_normalize_guard_witness :
    Double3.Normalize ⟨3, 0, 0⟩ = ⟨1, 0, 0⟩ ∧
      Double3.Normalize Double3.Zero = Double3.Zero := by
  constructor
  · have h := (claim_C1_normalize_guard ⟨3, 0, 0⟩).1
      (by rw [length_three_zero_zero]; norm_num [Mabs, ZeroTolerance])
    rw [h, length_three_zero_zero]
    ext <;> norm_num
  · exact (claim_C1_normalize_guard Double3.Zero).2
      (by rw [length_zero_vec]; norm_num [Mabs, ZeroTolerance])

/-- C2: the ordering operators are conjunctive per-component — `a > b` holds
iff every component of `a` exceeds the corresponding component of `b`, and
likewise for `>=`, `<`, `<=` — so the order is partial: for `a = (1,1,1)` and
`b = (2,2,0)`, none of `a > b`, `a < b`, `a == b` holds. -/
theorem claim_C2_ordering_conjunctive :
    (∀ a b : Double3, Double3.op_gt a b = true ↔
      (a.X > b.X ∧ a.Y > b.Y ∧ a.Z > b.Z)) ∧
    (∀ a b : Double3, Double3.op_ge a b = true ↔
      (a.X ≥ b.X ∧ a.Y ≥ b.Y ∧ a.Z ≥ b.Z)) ∧
    (∀ a b : Double3, Double3.op_lt a b = true ↔
      (a.X < b.X ∧ a.Y < b.Y ∧ a.Z < b.Z)) ∧
    (∀ a b : Double3, Double3.op_le a b = true ↔
      (a.X ≤ b.X ∧ a.Y ≤ b.Y ∧ a.Z ≤ b.Z)) ∧
    Double3.op_gt ⟨1, 1, 1⟩ ⟨2, 2, 0⟩ = false ∧
    Double3.op_lt ⟨1, 1, 1⟩ ⟨2, 2, 0⟩ = false ∧
    Double3.op_eq ⟨1, 1, 1⟩ ⟨2, 2, 0⟩ = false := by
  refine ⟨fun a b => ?_, fun a b => ?_, fun a b => ?_, fun a b => ?_,
    by decide, by decide, by decide⟩ <;>
    simp [Double3.op_gt, Double3.op_ge, Double3.op_lt, Double3.op_le,
      and_assoc]

/-- Closed instance of `claim_C2_ordering_conjunctive`: `(2,2,2) > (1,1,1)`
holds because every component exceeds, and `(1,1,1) <= (1,2,3)` holds because
every component is at most the counterpart. -/
theorem claim_C2_ordering_conjunctive_witness :
    Double3.op_gt ⟨2, 2, 2⟩ ⟨1, 1, 1⟩ = true ∧
      Double3.op_le ⟨1, 1, 1⟩ ⟨1, 2, 3⟩ = true :=
  ⟨(claim_C2_ordering_conjunctive.1 ⟨2, 2, 2⟩ ⟨1, 1, 1⟩).mpr
      ⟨by norm_num, by norm_num, by norm_num⟩,
    (claim_C2_ordering_conjunctive.2.2.2.1 ⟨1, 1, 1⟩ ⟨1, 2, 3⟩).mpr
      ⟨by norm_num, by norm_num, by norm_num⟩⟩

/-- Characterisation of `Int.log` base 2 by bracketing powers. -/
theorem int_log_two_eq (q : ℚ) (n : ℤ) (h1 : ((2 : ℕ) : ℚ) ^ n ≤ q)
    (h2 : q < ((2 : ℕ) : ℚ) ^ (n + 1)) : Int.log 2 q = n := by
  have hb : (1 : ℚ) < ((2 : ℕ) : ℚ) := by norm_num
  have h0 : 0 < q := lt_of_lt_of_le (zpow_pos (by norm_num) n) h1
  have hlb : n ≤ Int.log 2 q := by
    have hm := Int.log_mono_right (b := 2)
      (zpow_pos (show (0 : ℚ) < ((2 : ℕ) : ℚ) by norm_num) n) h1
    rwa [Int.log_zpow (by norm_num)] at hm
  have hub : Int.log 2 q ≤ n := by
    by_contra hcon
    push_neg at hcon
    have hle : ((2 : ℕ) : ℚ) ^ (n + 1) ≤ ((2 : ℕ) : ℚ) ^ Int.log 2 q :=
      zpow_le_zpow_right₀ (le_of_lt hb) (by omega)
    have hself := Int.zpow_log_le_self (b := 2) (by norm_num) h0
    linarith
  omega

/-- Rounding an exact integer changes nothing. -/
theorem rne_intCast (m : ℤ) : rne (m : ℚ) = m := by
  simp only [rne, Int.floor_intCast]
  norm_num

/-- The rounding model is the identity at zero. -/
theorem fl_zero : fl 0 = 0 := by
  simp [fl]

/-- Values with a 53-bit significand are fixed points of the rounding model:
whenever `q = m * 2^e` with `2^52 ≤ m < 2^53`, `fl q = q`. -/
theorem fl_of_repr (q : ℚ) (m e : ℤ) (hq : q = (m : ℚ) * 2 ^ e)
    (h1 : (4503599627370496 : ℤ) ≤ m) (h2 : m < 9007199254740992) :
    fl q = q := by
  have h2e : (0 : ℚ) < 2 ^ e := zpow_pos (by norm_num) e
  have hmq : (4503599627370496 : ℚ) ≤ (m : ℚ) := by exact_mod_cast h1
  have hmq2 : (m : ℚ) < 9007199254740992 := by exact_mod_cast h2
  have hm0 : (0 : ℚ) < (m : ℚ) := by linarith
  have hq0 : 0 < q := by
    rw [hq]
    positivity
  have hlog : Int.log 2 q = 52 + e := by
    apply int_log_two_eq
    · have hz : ((2 : ℕ) : ℚ) ^ (52 + e) = 4503599627370496 * 2 ^ e := by
        rw [zpow_add₀ (show ((2 : ℕ) : ℚ) ≠ 0 by norm_num)]
        norm_num
      rw [hz, hq]
      exact mul_le_mul_of_nonneg_right hmq (le_of_lt h2e)
    · have hz : ((2 : ℕ) : ℚ) ^ (52 + e + 1) = 9007199254740992 * 2 ^ e := by
        rw [show (52 : ℤ) + e + 1 = 53 + e from by ring,
          zpow_add₀ (show ((2 : ℕ) : ℚ) ≠ 0 by norm_num)]
        norm_num
      rw [hz, hq]
      exact mul_lt_mul_of_pos_right hmq2 h2e
  simp only [fl]
  rw [if_neg (ne_of_gt hq0), abs_of_pos hq0, hlog,
    show (52 : ℤ) + e - 52 = e from by ring, hq, mul_div_assoc,
    div_self (ne_of_gt h2e), mul_one, rne_intCast]

/-- Representability of 1 in the rounding model. -/
theorem fl_one : fl 1 = 1 :=
  fl_of_repr 1 4503599627370496 (-52) (by norm_num) (by norm_num) (by norm_num)

/-- Representability of 2 in the rounding model. -/
theorem fl_two : fl 2 = 2 :=
  fl_of_repr 2 4503599627370496 (-51) (by norm_num) (by norm_num) (by norm_num)

/-- Representability of 3 in the rounding model. -/
theorem fl_three : fl 3 = 3 :=
  fl_of_repr 3 6755399441055744 (-51) (by norm_num) (by norm_num) (by norm_num)

/-- Representability of 5 in the rounding model. -/
theorem fl_five : fl 5 = 5 :=
  fl_of_repr 5 5629499534213120 (-50) (by norm_num) (by norm_num) (by norm_num)

/-- Representability of 7 in the rounding model. -/
theorem fl_seven : fl 7 = 7 :=
  fl_of_repr 7 7881299347898368 (-50) (by norm_num) (by norm_num) (by norm_num)

/-- Representability of 9 in the rounding model. -/
theorem fl_nine : fl 9 = 9 :=
  fl_of_repr 9 5066549580791808 (-49) (by norm_num) (by norm_num) (by norm_num)

/-- C3 fails on the code under IEEE-754 double arithmetic: absorption at
`a = (1,0,0)`, `b = (1e17,0,0)` makes `1 + 1e17` round to `1e17` (the exact
sum needs 57 significand bits), so `(a + b) - b` is the zero vector and
`operator==` against `a` is false. -/
theorem claim_C3_add_sub_dot_comm_counterexample :
    Double3.op_eq (Double3.op_sub (Double3.op_add ⟨1, 0, 0⟩ ⟨1e17, 0, 0⟩)
      ⟨1e17, 0, 0⟩) ⟨1, 0, 0⟩ = false := by
  have hlog : Int.log 2 (100000000000000001 : ℚ) = 56 :=
    int_log_two_eq _ 56 (by norm_num) (by norm_num)
  have hfloor : ⌊(100000000000000001 : ℚ) / 2 ^ (4 : ℤ)⌋ = 6250000000000000 := by
    rw [Int.floor_eq_iff]
    constructor <;> norm_num
  have hrne : rne ((100000000000000001 : ℚ) / 2 ^ (4 : ℤ)) = 6250000000000000 := by
    simp only [rne, hfloor]
    rw [if_pos (by norm_num)]
  have hfl : fl (100000000000000001 : ℚ) = 100000000000000000 := by
    simp only [fl]
    rw [if_neg (by norm_num), abs_of_pos (by norm_num), hlog,
      show (56 : ℤ) - 52 = 4 from by norm_num, hrne]
    norm_num
  simp only [Double3.op_add, Double3.op_sub, addD, subD]
  rw [show (1 : ℚ) + 1e17 = 100000000000000001 from by norm_num, hfl]
  norm_num [fl_zero, Double3.op_eq]

/-- C3 (amended): `Dot(a, b) == Dot(b, a)` for all vectors; and
`(a + b) - b == a` under exact `operator==` whenever each component of `a`
is a representable double (a fixed point of `fl`) and each component sum
`a_i + b_i` is exact in double precision — but not in general, as the
counterexample shows. -/
theorem claim_C3_add_sub_dot_comm_amended (a b : Double3)
    (hax : fl a.X = a.X) (hay : fl a.Y = a.Y) (haz : fl a.Z = a.Z)
    (hsx : fl (a.X + b.X) = a.X + b.X) (hsy : fl (a.Y + b.Y) = a.Y + b.Y)
    (hsz : fl (a.Z + b.Z) = a.Z + b.Z) :
    Double3.op_eq (Double3.op_sub (Double3.op_add a b) b) a = true ∧
      Double3.Dot a b = Double3.Dot b a := by
  constructor
  · simp only [Double3.op_add, Double3.op_sub, addD, subD, hsx, hsy, hsz,
      add_sub_cancel_right, hax, hay, haz, Double3.op_eq]
    simp
  · simp only [Double3.Dot]; ring

/-- Closed instance of `claim_C3_add_sub_dot_comm_amended` at `a = (1,2,3)`,
`b = (4,5,6)`: all components and component sums are exactly representable,
so `(a + b) - b == a` holds there, as does `Dot` symmetry. -/
theorem claim_C3_add_sub_dot_comm_amended_witness :
    Double3.op_eq (Double3.op_sub (Double3.op_add ⟨1, 2, 3⟩ ⟨4, 5, 6⟩)
      ⟨4, 5, 6⟩) ⟨1, 2, 3⟩ = true ∧
      Double3.Dot ⟨1, 2, 3⟩ ⟨4, 5, 6⟩ = Double3.Dot ⟨4, 5, 6⟩ ⟨1, 2, 3⟩ :=
  claim_C3_add_sub_dot_comm_amended ⟨1, 2, 3⟩ ⟨4, 5, 6⟩ fl_one fl_two fl_three
    (by norm_num [fl_five]) (by norm_num [fl_seven]) (by norm_num [fl_nine])

/-- C4: `Cross(a, b)` returns exactly
`(a.Y*b.Z - a.Z*b.Y, a.Z*b.X - a.X*b.Z, a.X*b.Y - a.Y*b.X)`, the
output-reference overload writes the same value, and `a ^ b` returns the same
value as `Cross(a, b)`. -/
theorem claim_C4_cross_formula (a b : Double3) :
    Double3.Cross a b =
      ⟨a.Y * b.Z - a.Z * b.Y, a.Z * b.X - a.X * b.Z, a.X * b.Y - a.Y * b.X⟩ ∧
    Double3.Cross_out a b = Double3.Cross a b ∧
    Double3.op_caret a b = Double3.Cross a b :=
  ⟨rfl, rfl, rfl⟩

/-- C5: for all vectors `a` and `b`, `Cross(a, b) == -Cross(b, a)` (unary
minus, compared with the exact `operator==`), and for every vector `a`,
`Cross(a, a) == Zero`. -/
theorem claim_C5_cross_antisymm :
    (∀ a b : Double3, Double3.op_eq (Double3.Cross a b)
      (Double3.op_neg (Double3.Cross b a)) = true) ∧
    (∀ a : Double3, Double3.op_eq (Double3.Cross a a) Double3.Zero = true) := by
  constructor
  · intro a b
    simp only [Double3.op_eq, Double3.Cross, Double3.op_neg, Bool.and_eq_true,
      decide_eq_true_eq]
    refine ⟨⟨by ring, by ring⟩, by ring⟩
  · intro a
    simp only [Double3.op_eq, Double3.Cross, Double3.Zero, Bool.and_eq_true,
      decide_eq_true_eq]
    refine ⟨⟨by ring, by ring⟩, by ring⟩

/-- C6: for every vector `v` and scalar `s`, the compound assignments
(`v += s`, `v -= s`, `v *= s`, `v /= s`) leave `v` equal to the value of the
static twin (`Add`/`Subtract`/`Multiply`/`Divide`), which equals the
value-returning operator (`v + s`, `v - s`, `v * s`, `v / s`); and the
output-reference overloads write the same value as the value-returning
overloads. -/
theorem claim_C6_scalar_forms_agree (v : Double3) (s : ℚ) :
    (Double3.op_addAssign_scalar v s = Double3.op_add_scalar v s ∧
      Double3.Add v (Double3.broadcast s) = Double3.op_add_scalar v s ∧
      Double3.Add_out v (Double3.broadcast s) = Double3.op_add_scalar v s) ∧
    (Double3.op_subAssign_scalar v s = Double3.op_sub_scalar v s ∧
      Double3.Subtract v (Double3.broadcast s) = Double3.op_sub_scalar v s ∧
      Double3.Subtract_out v (Double3.broadcast s) = Double3.op_sub_scalar v s) ∧
    (Double3.op_mulAssign_scalar v s = Double3.op_mul_scalar v s ∧
      Double3.MultiplyS v s = Double3.op_mul_scalar v s) ∧
    (Double3.op_divAssign_scalar v s = Double3.op_div_scalar v s ∧
      Double3.DivideS v s = Double3.op_div_scalar v s) ∧
    (∀ a b : Double3, Double3.Add_out a b = Double3.Add a b ∧
      Double3.Subtract_out a b = Double3.Subtract a b ∧
      Double3.Multiply_out a b = Double3.Multiply a b ∧
      Double3.Divide_out a b = Double3.Divide a b) :=
  ⟨⟨rfl, rfl, rfl⟩, ⟨rfl, rfl, rfl⟩, ⟨rfl, rfl⟩, ⟨rfl, rfl⟩,
    fun _ _ => ⟨rfl, rfl, rfl, rfl⟩⟩

/-- C7: `Lerp(a, b, 0) == a` and `Lerp(a, b, 1) == b` under exact
component-wise equality, `Lerp(a, b, 0.5)` equals the arithmetic midpoint,
and the amount is not clamped: for every amount `t` the result is the raw
per-component `a + (b - a) * t`, so amounts outside `[0,1]` extrapolate
(e.g. amount `2` from `(0,0,0)` to `(1,1,1)` gives `(2,2,2)`). -/
theorem claim_C7_lerp_endpoints (a b : Double3) (t : ℚ) :
    Double3.Lerp a b 0 = a ∧
    Double3.Lerp a b 1 = b ∧
    Double3.Lerp a b (1 / 2) =
      ⟨(a.X + b.X) / 2, (a.Y + b.Y) / 2, (a.Z + b.Z) / 2⟩ ∧
    Double3.Lerp a b t =
      ⟨a.X + (b.X - a.X) * t, a.Y + (b.Y - a.Y) * t, a.Z + (b.Z - a.Z) * t⟩ ∧
    Double3.Lerp ⟨0, 0, 0⟩ ⟨1, 1, 1⟩ 2 = ⟨2, 2, 2⟩ ∧
    Double3.Lerp ⟨0, 0, 0⟩ ⟨1, 1, 1⟩ (-1) = ⟨-1, -1, -1⟩ := by
  refine ⟨?_, ?_, ?_, rfl, ?_, ?_⟩ <;>
    ext <;> simp only [Double3.Lerp, Double3.Lerp_out, mathLerp] <;> ring

/-- C8: both `NearEqual` overloads return true if and only if each of the
three component pairs individually satisfies the scalar tolerance comparison
(no aggregate or Euclidean-distance tolerance); for `a = (1,2,3)` and
`b = (1 + 1e-7, 2, 3)` the default-tolerance overload returns true and the
overload with explicit epsilon `1e-9` returns false. -/
theorem claim_C8_nearequal_componentwise :
    (∀ a b : Double3, Double3.NearEqual a b = true ↔
      (mathNearEqual a.X b.X = true ∧ mathNearEqual a.Y b.Y = true ∧
        mathNearEqual a.Z b.Z = true)) ∧
    (∀ (a b : Double3) (epsilon : ℚ),
      Double3.NearEqualEps a b epsilon = true ↔
      (mathNearEqualEps a.X b.X epsilon = true ∧
        mathNearEqualEps a.Y b.Y epsilon = true ∧
        mathNearEqualEps a.Z b.Z epsilon = true)) ∧
    Double3.NearEqual ⟨1, 2, 3⟩ ⟨1 + 1e-7, 2, 3⟩ = true ∧
    Double3.NearEqualEps ⟨1, 2, 3⟩ ⟨1 + 1e-7, 2, 3⟩ 1e-9 = false := by
  refine ⟨fun a b => ?_, fun a b epsilon => ?_, ?_, ?_⟩
  · simp [Double3.NearEqual, and_assoc]
  · simp [Double3.NearEqualEps, and_assoc]
  · norm_num [Double3.NearEqual, mathNearEqual, Mabs, ZeroTolerance,
      abs_of_nonneg]
  · norm_num [Double3.NearEqualEps, mathNearEqualEps, Mabs, abs_of_nonneg]

/-- Closed instance of `claim_C8_nearequal_componentwise`: equal vectors are
near-equal under both the default tolerance and an explicit tolerance of 1. -/
theorem claim_C8_nearequal_componentwise_witness :
    Double3.NearEqual ⟨1, 2, 3⟩ ⟨1, 2, 3⟩ = true ∧
      Double3.NearEqualEps ⟨1, 2, 3⟩ ⟨1, 2, 3⟩ 1 = true :=
  ⟨(claim_C8_nearequal_componentwise.1 ⟨1, 2, 3⟩ ⟨1, 2, 3⟩).mpr
      ⟨by norm_num [mathNearEqual, Mabs, ZeroTolerance],
        by norm_num [mathNearEqual, Mabs, ZeroTolerance],
        by norm_num [mathNearEqual, Mabs, ZeroTolerance]⟩,
    (claim_C8_nearequal_componentwise.2.1 ⟨1, 2, 3⟩ ⟨1, 2, 3⟩ 1).mpr
      ⟨by norm_num [mathNearEqualEps, Mabs],
        by norm_num [mathNearEqualEps, Mabs],
        by norm_num [mathNearEqualEps, Mabs]⟩⟩

/-- C9: `AverageArithmetic(v)` equals `(v.X + v.Y + v.Z) * 0.333333334`, a
precomputed reciprocal-of-three constant rather than a true division by 3;
the constant differs from `1/3`, so `AverageArithmetic((1,1,1))` is not
exactly `1.0` (and differs from the true division `(1+1+1)/3`). -/
theorem claim_C9_average_arithmetic (v : Double3) :
    Double3.AverageArithmetic v = (v.X + v.Y + v.Z) * 0.333333334 ∧
    (0.333333334 : ℚ) ≠ 1 / 3 ∧
    Double3.AverageArithmetic ⟨1, 1, 1⟩ ≠ 1 ∧
    Double3.AverageArithmetic ⟨1, 1, 1⟩ ≠ (1 + 1 + 1) / 3 :=
  ⟨rfl, by norm_num, by norm_num [Double3.AverageArithmetic],
    by norm_num [Double3.AverageArithmetic]⟩

/-- C10: `GetNormalized` and the mutating `NormalizeFast` have no zero-length
guard: on the zero vector they compute `1.0 / 0.0 = +inf` and then
`0.0 * inf = NaN`, so every component of the result is NaN and `IsNaN` on the
result returns true — in contrast to the guarded mutating `Normalize`, which
leaves the zero vector unchanged. -/
theorem claim_C10_unguarded_normalize_nan :
    DExt.div (.fn 1) (Double3E.LengthE Double3E.ZeroE) = DExt.pinf ∧
    DExt.mul (.fn 0) DExt.pinf = DExt.nan ∧
    Double3E.GetNormalizedE Double3E.ZeroE = ⟨.nan, .nan, .nan⟩ ∧
    Double3E.NormalizeFastE Double3E.ZeroE = ⟨.nan, .nan, .nan⟩ ∧
    Double3E.NormalizeFastStaticE Double3E.ZeroE = ⟨.nan, .nan, .nan⟩ ∧
    Double3E.IsNaNE (Double3E.GetNormalizedE Double3E.ZeroE) = true ∧
    Double3E.IsNaNE (Double3E.NormalizeFastE Double3E.ZeroE) = true ∧
    Double3E.NormalizeE Double3E.ZeroE = Double3E.ZeroE := by
  refine ⟨?_, ?_, ?_, ?_, ?_, ?_, ?_, ?_⟩ <;>
    norm_num [Double3E.GetNormalizedE, Double3E.NormalizeFastE,
      Double3E.NormalizeFastStaticE, Double3E.NormalizeE, Double3E.IsNaNE,
      Double3E.LengthE, Double3E.ZeroE, DExt.mul, DExt.add, DExt.div,
      DExt.sqrtE, DExt.absE, DExt.geB, DExt.isnanB, ratSqrt_zero,
      ZeroTolerance]

end Flax
